import Mathlib

/-!
Shallow embedding of `reflex/utils/serializers.py`: the type-driven
serialization registry consisting of the `serializer` registration
decorator, the cached resolution functions `get_serializer` and
`get_serializer_type`, and the `serialize` entry point.

Python runtime types are modelled as natural-number identifiers.  Python
`dict`s (which preserve insertion order and keep an overwritten key at its
original position) are modelled as association lists with `dictGet` and
`dictSet`.  The two `functools.lru_cache` memos are modelled as explicit
association lists threaded through the state; `cache_clear` becomes
replacement by the empty list.  Python functions are modelled as records
carrying an identity tag (standing for object identity, which is what
`!=` compares on plain functions), `__module__`, `__qualname__`, the
declared parameter-type hints, the declared return-type hint and the
behaviour itself.
-/

namespace Serializers

/-- JSON-compatible serialized values (`SerializedType` in the source:
str, bool, int, float, list, dict or None).  Floats are represented as
rationals; no theorem below depends on float arithmetic. -/
inductive SVal where
  | str (s : String)
  | boolVal (b : Bool)
  | intVal (n : Int)
  | floatVal (q : Rat)
  | listVal (xs : List SVal)
  | dict (xs : List (String × SVal))
  | null

/-- A Python runtime value, as far as `serialize` inspects it: its type
(`type(value)`), whether it is a dataclass instance
(`dataclasses.is_dataclass(value)`), whether it is itself a class
(`isinstance(value, type)`), and its named fields (`dataclasses.fields`
plus `getattr`). -/
structure PyVal where
  ty : Nat
  isDataclass : Bool
  isType : Bool
  fields : List (String × SVal)

/-- A Python function as seen by the `serializer` decorator: `fid` models
object identity (used by the `registered_fn != fn` comparison), `modName`
and `qualname` model `__module__` and `__qualname__`, `argTypes` is the
list of annotated parameter types from `get_type_hints` (excluding
`return`), `retType` the annotated return type, and `run` the behaviour. -/
structure SFn where
  fid : Nat
  modName : String
  qualname : String
  argTypes : List Nat
  retType : Option Nat
  run : PyVal → SVal

/-- Lookup in an insertion-ordered dict (`d.get(k)`). -/
def dictGet {α : Type} : List (Nat × α) → Nat → Option α
  | [], _ => none
  | (k2, v) :: rest, k => if k2 = k then some v else dictGet rest k

/-- Assignment in an insertion-ordered dict (`d[k] = v`): an existing key
keeps its original position, a new key is appended at the end.  This is
exactly CPython dict semantics. -/
def dictSet {α : Type} : List (Nat × α) → Nat → α → List (Nat × α)
  | [], k, v => [(k, v)]
  | (k2, v2) :: rest, k, v =>
      if k2 = k then (k, v) :: rest else (k2, v2) :: dictSet rest k v

/-- Scan a list of (registered type, payload) pairs and return the first
pair whose key is an ancestor of `t` under `issub`.  This is the loop
`for registered_type, serializer in ...: if types._issubclass(...)`. -/
def firstMatchPair {α : Type} (issub : Nat → Nat → Bool) (t : Nat) :
    List (Nat × α) → Option (Nat × α)
  | [] => none
  | (rt, s) :: rest =>
      if issub t rt then some (rt, s) else firstMatchPair issub t rest

/-- The global mutable state of the module: the two ordered registries
`SERIALIZERS` and `SERIALIZER_TYPES` plus the two `lru_cache` memos of
`get_serializer` and `get_serializer_type`. -/
structure RegState where
  SERIALIZERS : List (Nat × SFn)
  SERIALIZER_TYPES : List (Nat × Nat)
  fnCache : List (Nat × Option SFn)
  tyCache : List (Nat × Option Nat)

/-- Shared body of `get_serializer` and `get_serializer_type` minus the
cache: exact lookup first, then a scan of the registry in reverse
insertion order (`reversed(d.items())`) for an ancestor match.

Modelled from the spec for the part outside `src/`: the subclass test
`types._issubclass` (defined in `reflex/utils/types.py`, not part of the
embedded file) is abstracted as the relation `issub`, "the queried type
is-a registered type, accounting for structural/duck-typed ancestry such
as abstract base classes". -/
def lookupBySubclass {α : Type} (issub : Nat → Nat → Bool)
    (m : List (Nat × α)) (type_ : Nat) : Option α :=
  match dictGet m type_ with
  | some s => some s
  | none => (firstMatchPair issub type_ m.reverse).map Prod.snd

/-- `get_serializer` with the cache stripped: what the body computes from
the current `SERIALIZERS` registry. -/
def get_serializer_nocache (issub : Nat → Nat → Bool) (st : RegState)
    (type_ : Nat) : Option SFn :=
  lookupBySubclass issub st.SERIALIZERS type_

/-- `get_serializer_type` with the cache stripped: what the body computes
from the current `SERIALIZER_TYPES` registry. -/
def get_serializer_type_nocache (issub : Nat → Nat → Bool) (st : RegState)
    (type_ : Nat) : Option Nat :=
  lookupBySubclass issub st.SERIALIZER_TYPES type_

/-- `get_serializer`, including its `functools.lru_cache`: a hit returns
the memoized answer, a miss computes from the registry and memoizes. -/
def get_serializer (issub : Nat → Nat → Bool) (st : RegState)
    (type_ : Nat) : Option SFn × RegState :=
  match dictGet st.fnCache type_ with
  | some r => (r, st)
  | none =>
      let r := get_serializer_nocache issub st type_
      (r, { st with fnCache := dictSet st.fnCache type_ r })

/-- `get_serializer_type`, including its `functools.lru_cache`. -/
def get_serializer_type (issub : Nat → Nat → Bool) (st : RegState)
    (type_ : Nat) : Option Nat × RegState :=
  match dictGet st.tyCache type_ with
  | some r => (r, st)
  | none =>
      let r := get_serializer_type_nocache issub st type_
      (r, { st with tyCache := dictSet st.tyCache type_ r })

/-- The message of the arity `ValueError` raised by the decorator. -/
def single_arg_message : String := "Serializer must take a single argument."

/-- The overwrite message built by the decorator, naming the origin
(`__module__:__qualname__`) of both the previously registered and the new
function. -/
def overwrite_message (type_ : Nat) (registered_fn fn : SFn) : String :=
  "Overwriting serializer for type " ++ toString type_ ++ " from "
    ++ registered_fn.modName ++ ":" ++ registered_fn.qualname ++ " to "
    ++ fn.modName ++ ":" ++ fn.qualname ++ "."

/-- The suffix appended to the overwrite message when it is emitted as a
warning (the caller-frame location info, which depends on stack
introspection, is omitted from the model). -/
def warn_suffix : String :=
  " Call rx.serializer with `overwrite=True` if this is intentional."

/-- `to or type_hints.get("return")`: the declared output type, from the
explicit `to` argument if given, else from the return annotation. -/
def resolveTo (to_ : Option Nat) (fn : SFn) : Option Nat :=
  match to_ with
  | some t => some t
  | none => fn.retType

/-- The state after the mutating tail of the decorator body: if an output
type was resolved, record it in `SERIALIZER_TYPES` and clear the
`get_serializer_type` cache; then record the function in `SERIALIZERS`
and clear the `get_serializer` cache. -/
def finishState (to_ : Option Nat) (fn : SFn) (type_ : Nat)
    (st : RegState) : RegState :=
  let st1 :=
    match resolveTo to_ fn with
    | some to_type =>
        { st with
          SERIALIZER_TYPES := dictSet st.SERIALIZER_TYPES type_ to_type,
          tyCache := [] }
    | none => st
  { st1 with
    SERIALIZERS := dictSet st1.SERIALIZERS type_ fn,
    fnCache := [] }

/-- Successful completion of the decorator: return the function itself,
the mutated state, and the warnings emitted along the way. -/
def finishRegistration (to_ : Option Nat) (fn : SFn) (type_ : Nat)
    (st : RegState) (warnings : List String) :
    Except String (SFn × RegState × List String) :=
  Except.ok (fn, finishState to_ fn type_ st, warnings)

/-- The `wrapper` body of the `serializer` decorator.  `Except.error`
models a raised `ValueError` (which leaves the global state untouched,
since the body raises before mutating anything); `Except.ok` carries the
returned function, the new state and the list of emitted warnings. -/
def serializer_wrapper (to_ : Option Nat) (overwrite : Option Bool)
    (fn : SFn) (st : RegState) :
    Except String (SFn × RegState × List String) :=
  match fn.argTypes with
  | [type_] =>
      match dictGet st.SERIALIZERS type_ with
      | some registered_fn =>
          if registered_fn.fid ≠ fn.fid ∧ overwrite ≠ some true then
            if overwrite = some false then
              Except.error (overwrite_message type_ registered_fn fn)
            else
              finishRegistration to_ fn type_ st
                [overwrite_message type_ registered_fn fn ++ warn_suffix]
          else finishRegistration to_ fn type_ st []
      | none => finishRegistration to_ fn type_ st []
  | _ => Except.error single_arg_message

/-- Whether a decorator call succeeded. -/
def regOk (r : Except String (SFn × RegState × List String)) : Bool :=
  match r with
  | Except.ok _ => true
  | Except.error _ => false

/-- The state after a decorator call: the mutated state on success, the
unchanged state if a `ValueError` was raised. -/
def regStateAfter (to_ : Option Nat) (overwrite : Option Bool) (fn : SFn)
    (st : RegState) : RegState :=
  match serializer_wrapper to_ overwrite fn st with
  | Except.ok (_, st2, _) => st2
  | Except.error _ => st

/-- The shape of a `serialize` return value: either a single value
(`SerializedType | None`) or, on the `get_type` paths that build one, a
pair of value and output type. -/
inductive SerializeOut where
  | plain (v : Option SVal)
  | pair (v : Option SVal) (t : Option Nat)

/-- The `serialize` entry point.  Resolve a function for `type(value)`;
if none, fall back to the field mapping for dataclass instances (note the
source returns that mapping directly, without consulting `get_type`),
else return the absent marker; if a function was found, apply it and
optionally pair the result with the resolved output type. -/
def serialize (issub : Nat → Nat → Bool) (st : RegState) (value : PyVal)
    (get_type : Bool) : SerializeOut × RegState :=
  let res := get_serializer issub st value.ty
  match res.1 with
  | none =>
      if value.isDataclass && !value.isType then
        (SerializeOut.plain (some (SVal.dict value.fields)), res.2)
      else if get_type then (SerializeOut.pair none none, res.2)
      else (SerializeOut.plain none, res.2)
  | some f =>
      let serialized := f.run value
      if get_type then
        let resTy := get_serializer_type issub res.2 value.ty
        (SerializeOut.pair (some serialized) resTy.1, resTy.2)
      else (SerializeOut.plain (some serialized), res.2)

/-- The `get_serializer` memo is coherent with the current registry:
every cached answer equals what the uncached body would compute. -/
def FnCacheCoherent (issub : Nat → Nat → Bool) (st : RegState) : Prop :=
  ∀ t r, dictGet st.fnCache t = some r → r = get_serializer_nocache issub st t

/-- The `get_serializer_type` memo is coherent with the current registry. -/
def TyCacheCoherent (issub : Nat → Nat → Bool) (st : RegState) : Prop :=
  ∀ t r, dictGet st.tyCache t = some r → r = get_serializer_type_nocache issub st t

/-- A conversion behaviour used by the concrete example registrations
below; its output is irrelevant to every statement that mentions it. -/
def noRun : PyVal → SVal := fun _ => SVal.null

/-- The empty module state: no registrations, cold caches. -/
def emptyState : RegState := ⟨[], [], [], []⟩

end Serializers

namespace Serializers

/-- Looking up a key right after assigning it yields the assigned value. -/
theorem dictGet_dictSet_self {α : Type} (d : List (Nat × α)) (k : Nat) (v : α) :
    dictGet (dictSet d k v) k = some v := by
  induction d with
  | nil => simp [dictGet, dictSet]
  | cons p rest ih =>
    obtain ⟨k2, v2⟩ := p
    by_cases h : k2 = k
    · simp [dictSet, h, dictGet]
    · simp [dictSet, h, dictGet, ih]

/-- Assigning to a key that is already present leaves the key sequence
(and hence the insertion order) of the dict unchanged. -/
theorem dictSet_map_fst {α : Type} (d : List (Nat × α)) (k : Nat) (v v0 : α)
    (h : dictGet d k = some v0) :
    (dictSet d k v).map Prod.fst = d.map Prod.fst := by
  induction d with
  | nil => simp [dictGet] at h
  | cons p rest ih =>
    obtain ⟨k2, v2⟩ := p
    by_cases hk : k2 = k
    · simp [dictSet, hk]
    · simp [dictGet, hk] at h
      simp [dictSet, hk, ih h]

/-- A scan skips over a leading block that contains no ancestor of `t`. -/
theorem firstMatchPair_append {α : Type} (issub : Nat → Nat → Bool) (t : Nat)
    (l1 l2 : List (Nat × α)) (h : ∀ p ∈ l1, issub t p.1 = false) :
    firstMatchPair issub t (l1 ++ l2) = firstMatchPair issub t l2 := by
  induction l1 with
  | nil => simp
  | cons p rest ih =>
    obtain ⟨rt, s⟩ := p
    have hp : issub t rt = false := h (rt, s) (by simp)
    have hrest : ∀ q ∈ rest, issub t q.1 = false :=
      fun q hq => h q (by simp [hq])
    simp [firstMatchPair, hp, ih hrest]

/-- Which key wins a scan depends only on the key sequence, not on the
payloads stored alongside the keys. -/
theorem firstMatchPair_fst_congr {α : Type} (issub : Nat → Nat → Bool) (t : Nat)
    (l1 l2 : List (Nat × α)) (h : l1.map Prod.fst = l2.map Prod.fst) :
    (firstMatchPair issub t l1).map Prod.fst
      = (firstMatchPair issub t l2).map Prod.fst := by
  induction l1 generalizing l2 with
  | nil =>
    cases l2 with
    | nil => rfl
    | cons q l2 => simp at h
  | cons p l1 ih =>
    cases l2 with
    | nil => simp at h
    | cons q l2 =>
      obtain ⟨rt, s⟩ := p
      obtain ⟨rt2, s2⟩ := q
      simp at h
      obtain ⟨rfl, hrest⟩ := h
      by_cases hs : issub t rt
      · simp [firstMatchPair, hs]
      · simp [firstMatchPair, hs, ih l2 hrest]

/-- Under a coherent memo, the cached `get_serializer` answers exactly as
its uncached body. -/
theorem get_serializer_eq_nocache (issub : Nat → Nat → Bool) (st : RegState)
    (t : Nat) (hcoh : FnCacheCoherent issub st) :
    (get_serializer issub st t).1 = get_serializer_nocache issub st t := by
  unfold get_serializer
  cases h : dictGet st.fnCache t with
  | none => simp
  | some r => simp [hcoh t r h]

/-- Under a coherent memo, the cached `get_serializer_type` answers
exactly as its uncached body. -/
theorem get_serializer_type_eq_nocache (issub : Nat → Nat → Bool)
    (st : RegState) (t : Nat) (hcoh : TyCacheCoherent issub st) :
    (get_serializer_type issub st t).1 = get_serializer_type_nocache issub st t := by
  unfold get_serializer_type
  cases h : dictGet st.tyCache t with
  | none => simp
  | some r => simp [hcoh t r h]

/-- The decorator tail always stores the new function under its declared
input type, whatever happens to the output-type registry. -/
theorem finishState_SERIALIZERS (to_ : Option Nat) (fn : SFn) (type_ : Nat)
    (st : RegState) :
    (finishState to_ fn type_ st).SERIALIZERS = dictSet st.SERIALIZERS type_ fn := by
  unfold finishState
  cases resolveTo to_ fn <;> rfl

/-- The decorator tail always clears the `get_serializer` memo. -/
theorem finishState_fnCache (to_ : Option Nat) (fn : SFn) (type_ : Nat)
    (st : RegState) :
    (finishState to_ fn type_ st).fnCache = [] := by
  unfold finishState
  cases resolveTo to_ fn <;> rfl

/-- Inversion for a successful decorator call: the returned function is
the decorated one, the declared signature had a single parameter, and the
resulting state is the decorator tail's. -/
theorem serializer_wrapper_ok {to_ : Option Nat} {ow : Option Bool}
    {fn g : SFn} {st st' : RegState} {w : List String}
    (hok : serializer_wrapper to_ ow fn st = Except.ok (g, st', w)) :
    g = fn ∧ ∃ type_, fn.argTypes = [type_] ∧ st' = finishState to_ fn type_ st := by
  rcases hargs : fn.argTypes with _ | ⟨a, _ | ⟨b, rest⟩⟩
  · simp [serializer_wrapper, hargs] at hok
  · simp only [serializer_wrapper, hargs] at hok
    cases hget : dictGet st.SERIALIZERS a with
    | none =>
      rw [hget] at hok
      simp [finishRegistration] at hok
      exact ⟨hok.1.symm, a, rfl, hok.2.1.symm⟩
    | some rf =>
      rw [hget] at hok
      simp only [] at hok
      by_cases hc : rf.fid ≠ fn.fid ∧ ow ≠ some true
      · rw [if_pos hc] at hok
        by_cases hf : ow = some false
        · rw [if_pos hf] at hok
          exact Except.noConfusion hok
        · rw [if_neg hf] at hok
          simp [finishRegistration] at hok
          exact ⟨hok.1.symm, a, rfl, hok.2.1.symm⟩
      · rw [if_neg hc] at hok
        simp [finishRegistration] at hok
        exact ⟨hok.1.symm, a, rfl, hok.2.1.symm⟩
  · simp [serializer_wrapper, hargs] at hok

/-- With an empty memo, the cached `get_serializer_type` answers as its
uncached body. -/
theorem get_serializer_type_fst_of_empty (issub : Nat → Nat → Bool)
    (st : RegState) (T : Nat) (h : st.tyCache = []) :
    (get_serializer_type issub st T).1 = get_serializer_type_nocache issub st T := by
  unfold get_serializer_type
  rw [h]
  simp [dictGet]

/-- An exact entry registered for the function's declared type. -/
def exFnExact : SFn := ⟨10, "exm", "fExact", [5], none, noRun⟩

/-- A function registered for an ancestor type of `5`. -/
def exFnAnc : SFn := ⟨11, "exm", "fAnc", [1], none, noRun⟩

/-- Ancestry for the exact-match example: type `1` is an ancestor of `5`. -/
def exIssubC1 : Nat → Nat → Bool := fun t rt => (t == 5) && (rt == 1)

/-- Registry holding both an ancestor entry and an exact entry for `5`. -/
def ex1State : RegState := ⟨[(1, exFnAnc), (5, exFnExact)], [], [], []⟩

/-- Claim C1: when the `SERIALIZERS` mapping holds an exact entry for the
queried type, `get_serializer` returns exactly that entry's function —
the exact lookup precedes the ancestor scan, so other registered
ancestor types never shadow it.  The coherence hypothesis states that
the memo reflects the current registry, which every registration
guarantees by clearing it. -/
theorem exact_match_priority (issub : Nat → Nat → Bool) (st : RegState)
    (T : Nat) (f : SFn)
    (hcoh : FnCacheCoherent issub st)
    (hexact : dictGet st.SERIALIZERS T = some f) :
    (get_serializer issub st T).1 = some f := by
  rw [get_serializer_eq_nocache issub st T hcoh]
  unfold get_serializer_nocache lookupBySubclass
  rw [hexact]

/-- Witness for C1: with both an ancestor entry for `1` and an exact
entry for `5` registered, resolution of `5` returns the exact entry. -/
theorem exact_match_priority_witness :
    exIssubC1 5 1 = true ∧
    (get_serializer exIssubC1 ex1State 5).1 = some exFnExact :=
  ⟨rfl, exact_match_priority exIssubC1 ex1State 5 exFnExact
    (fun t r h => by simp [ex1State, dictGet] at h) rfl⟩

/-- Claim C5: a function whose declared hints do not amount to exactly
one parameter (besides the optional return hint) is rejected at
registration time with the `ValueError` message
"Serializer must take a single argument.". -/
theorem single_argument_required (to_ : Option Nat) (ow : Option Bool)
    (fn : SFn) (st : RegState) (h : fn.argTypes.length ≠ 1) :
    serializer_wrapper to_ ow fn st = Except.error single_arg_message := by
  rcases hargs : fn.argTypes with _ | ⟨a, _ | ⟨b, rest⟩⟩
  · simp [serializer_wrapper, hargs]
  · rw [hargs] at h
    simp at h
  · simp [serializer_wrapper, hargs]

/-- A function declaring two parameters. -/
def c5Fn : SFn := ⟨51, "m5", "g5", [1, 2], none, noRun⟩

/-- Witness for C5: registering a two-parameter function fails with the
arity error. -/
theorem single_argument_required_witness :
    serializer_wrapper none none c5Fn emptyState
      = Except.error single_arg_message :=
  single_argument_required none none c5Fn emptyState (by decide)

/-- A dataclass instance of an unregistered type with two fields. -/
def c6Val : PyVal := ⟨9, true, false, [("x", SVal.intVal 1), ("y", SVal.str "a")]⟩

/-- Claim C6 (code bug): for a dataclass instance whose type has no
resolvable conversion function, `serialize(value, get_type=True)` does
NOT return the declared two-element pair: the dataclass branch returns
the bare field mapping directly, ignoring `get_type`, contradicting the
source's own `@overload` declaration that the `get_type=True` call
returns a tuple. -/
theorem dataclass_get_type_returns_bare_mapping :
    (serialize (fun _ _ => false) emptyState c6Val true).1
      = SerializeOut.plain
          (some (SVal.dict [("x", SVal.intVal 1), ("y", SVal.str "a")])) := rfl

/-- Claim C7: a dataclass instance (not a class) whose type has no
resolvable conversion function serializes to the string-keyed mapping of
its field names to their raw field values. -/
theorem dataclass_fallback_fields (issub : Nat → Nat → Bool) (st : RegState)
    (v : PyVal) (hcoh : FnCacheCoherent issub st)
    (hnone : get_serializer_nocache issub st v.ty = none)
    (hdc : v.isDataclass = true) (hnotype : v.isType = false) :
    (serialize issub st v false).1
      = SerializeOut.plain (some (SVal.dict v.fields)) := by
  have h1 : (get_serializer issub st v.ty).1 = none := by
    rw [get_serializer_eq_nocache issub st v.ty hcoh, hnone]
  simp only [serialize]
  rw [h1]
  simp [hdc, hnotype]

/-- A dataclass instance with fields x = 1 and y = "a". -/
def c7Val : PyVal := ⟨9, true, false, [("x", SVal.intVal 1), ("y", SVal.str "a")]⟩

/-- Witness for C7: the record with fields x = 1, y = "a" and no
registered converter serializes to the mapping x to 1, y to "a". -/
theorem dataclass_fallback_fields_witness :
    (serialize (fun _ _ => false) emptyState c7Val false).1
      = SerializeOut.plain
          (some (SVal.dict [("x", SVal.intVal 1), ("y", SVal.str "a")])) :=
  dataclass_fallback_fields (fun _ _ => false) emptyState c7Val
    (fun t r h => by simp [emptyState, dictGet] at h) rfl rfl rfl

/-- Claim C8: for a value whose type has no resolvable conversion
function and which is not a dataclass instance, `serialize` returns the
absent marker; the model is a total function, so absence is communicated
only through the return value, never through a raised fault. -/
theorem absent_not_failure (issub : Nat → Nat → Bool) (st : RegState)
    (v : PyVal) (hcoh : FnCacheCoherent issub st)
    (hnone : get_serializer_nocache issub st v.ty = none)
    (hnotrec : (v.isDataclass && !v.isType) = false) :
    (serialize issub st v false).1 = SerializeOut.plain none := by
  have h1 : (get_serializer issub st v.ty).1 = none := by
    rw [get_serializer_eq_nocache issub st v.ty hcoh, hnone]
  simp only [serialize]
  rw [h1]
  simp [hnotrec]

/-- A non-dataclass value of an unregistered type. -/
def c8Val : PyVal := ⟨9, false, false, []⟩

/-- Witness for C8: serializing an unregistered, non-structural value
returns the absent marker. -/
theorem absent_not_failure_witness :
    (serialize (fun _ _ => false) emptyState c8Val false).1
      = SerializeOut.plain none :=
  absent_not_failure (fun _ _ => false) emptyState c8Val
    (fun t r h => by simp [emptyState, dictGet] at h) rfl rfl

/-- Function registered first, for ancestor type `1`. -/
def cFn1 : SFn := ⟨21, "m", "f1", [1], none, noRun⟩

/-- Function registered second, for ancestor type `2`. -/
def cFn2 : SFn := ⟨22, "m", "f2", [2], none, noRun⟩

/-- Function registered third, for ancestor type `3`. -/
def cFn3 : SFn := ⟨23, "m", "f3", [3], none, noRun⟩

/-- Ancestry for the recency examples: types `1`, `2` and `3` are all
ancestors of the queried type `10`. -/
def cIssub : Nat → Nat → Bool :=
  fun t rt => (t == 10) && (rt == 1 || rt == 2 || rt == 3)

/-- Registry with three ancestor entries of `10`, registered in the
order `1`, `2`, `3`, and no exact entry for `10`. -/
def cState : RegState := ⟨[(1, cFn1), (2, cFn2), (3, cFn3)], [], [], []⟩

/-- Counterexample for claim C2: take the registered ancestors A = 1 and
B = 2 of the queried type 10, with A registered before B and no exact
entry for 10.  The claim says resolution returns B's function; the code
returns the function registered for 3 (the latest-registered ancestor,
function identity 23), which is not B's function (identity 22). -/
theorem recency_pair_counterexample :
    cState.SERIALIZERS.map Prod.fst = [1, 2, 3] ∧
    dictGet cState.SERIALIZERS 10 = (none : Option SFn) ∧
    cIssub 10 1 = true ∧ cIssub 10 2 = true ∧
    ((get_serializer cIssub cState 10).1).map SFn.fid = some cFn3.fid ∧
    cFn3.fid ≠ cFn2.fid :=
  ⟨rfl, rfl, rfl, rfl, rfl, by decide⟩

/-- Claim C2 (amended): with no exact entry, the scan visits registered
entries in reverse insertion order and returns the first ancestor match;
hence for registered ancestors A and B of the queried type with A
registered before B, resolution returns B's function provided no
ancestor of the queried type was registered after B. -/
theorem recency_last_ancestor (issub : Nat → Nat → Bool) (st : RegState)
    (t A B : Nat) (fA fB : SFn) (pre mid post : List (Nat × SFn))
    (hcoh : FnCacheCoherent issub st)
    (hnoexact : dictGet st.SERIALIZERS t = none)
    (hsplit : st.SERIALIZERS = pre ++ ((A, fA) :: mid) ++ ((B, fB) :: post))
    (_hancA : issub t A = true)
    (hancB : issub t B = true)
    (hpost : ∀ p ∈ post, issub t p.1 = false) :
    (get_serializer issub st t).1 = some fB := by
  rw [get_serializer_eq_nocache issub st t hcoh]
  unfold get_serializer_nocache lookupBySubclass
  rw [hnoexact]
  simp only []
  rw [hsplit]
  have hrev : (pre ++ ((A, fA) :: mid) ++ ((B, fB) :: post)).reverse
      = post.reverse ++ ((B, fB) :: (mid.reverse ++ ((A, fA) :: pre.reverse))) := by
    simp
  rw [hrev]
  rw [firstMatchPair_append issub t post.reverse _
    (fun p hp => hpost p (List.mem_reverse.mp hp))]
  simp [firstMatchPair, hancB]

/-- Witness for C2 (amended): ancestors 1 (A) and 3 (B) of the queried
type 10, with nothing registered after B; resolution returns B's
function. -/
theorem recency_last_ancestor_witness :
    (get_serializer cIssub cState 10).1 = some cFn3 :=
  recency_last_ancestor cIssub cState 10 1 3 cFn1 cFn3 [] [(2, cFn2)] []
    (fun t r h => by simp [cState, dictGet] at h) rfl rfl rfl rfl
    (fun p hp => absurd hp (List.not_mem_nil p))

/-- The function originally registered for type `5`. -/
def c3Fn : SFn := ⟨31, "mod1", "f", [5], none, noRun⟩

/-- Registry with one entry, for type `5`. -/
def c3State : RegState := ⟨[(5, c3Fn)], [], [], []⟩

/-- A different function (different identity) also declared for `5`. -/
def c3New : SFn := ⟨32, "mod2", "g", [5], none, noRun⟩

/-- Counterexample for claim C3: re-registering the very same function
object for its already-registered type with overwrite=False succeeds
(the decorator only objects when `registered_fn != fn`), whereas the
claim says every registration for an already-registered type fails under
overwrite=False. -/
theorem overwrite_same_fn_counterexample :
    (dictGet c3State.SERIALIZERS 5).isSome = true ∧
    regOk (serializer_wrapper none (some false) c3Fn c3State) = true :=
  ⟨rfl, rfl⟩

/-- Claim C3 (amended): when the input type already holds a different
function (different identity): overwrite=False fails with the
`ValueError` whose message names both functions' module and qualified
name, raised before any mutation; overwrite=True replaces the entry
silently (no warnings); overwrite unspecified replaces the entry and
emits one warning naming both origins. -/
theorem overwrite_semantics (to_ : Option Nat) (fn fold : SFn)
    (st : RegState) (t : Nat)
    (hargs : fn.argTypes = [t])
    (hreg : dictGet st.SERIALIZERS t = some fold)
    (hdiff : fold.fid ≠ fn.fid) :
    serializer_wrapper to_ (some false) fn st
        = Except.error (overwrite_message t fold fn)
      ∧ (serializer_wrapper to_ (some true) fn st
          = Except.ok (fn, finishState to_ fn t st, [])
        ∧ dictGet (finishState to_ fn t st).SERIALIZERS t = some fn)
      ∧ (serializer_wrapper to_ none fn st
          = Except.ok (fn, finishState to_ fn t st,
              [overwrite_message t fold fn ++ warn_suffix])
        ∧ dictGet (finishState to_ fn t st).SERIALIZERS t = some fn) := by
  have hget : dictGet (finishState to_ fn t st).SERIALIZERS t = some fn := by
    rw [finishState_SERIALIZERS, dictGet_dictSet_self]
  refine ⟨?_, ⟨?_, hget⟩, ⟨?_, hget⟩⟩
  · simp only [serializer_wrapper, hargs]
    rw [hreg]
    simp only []
    rw [if_pos ⟨hdiff, by simp⟩]
    simp
  · simp only [serializer_wrapper, hargs]
    rw [hreg]
    simp only []
    rw [if_neg (fun h => h.2 rfl)]
    rfl
  · simp only [serializer_wrapper, hargs]
    rw [hreg]
    simp only []
    rw [if_pos ⟨hdiff, by simp⟩, if_neg (by simp)]
    rfl

/-- Witness for C3 (amended): registering a different function for the
already-registered type `5` under each of the three overwrite modes. -/
theorem overwrite_semantics_witness :
    serializer_wrapper none (some false) c3New c3State
        = Except.error (overwrite_message 5 c3Fn c3New)
      ∧ (serializer_wrapper none (some true) c3New c3State
          = Except.ok (c3New, finishState none c3New 5 c3State, [])
        ∧ dictGet (finishState none c3New 5 c3State).SERIALIZERS 5 = some c3New)
      ∧ (serializer_wrapper none none c3New c3State
          = Except.ok (c3New, finishState none c3New 5 c3State,
              [overwrite_message 5 c3Fn c3New ++ warn_suffix])
        ∧ dictGet (finishState none c3New 5 c3State).SERIALIZERS 5 = some c3New) :=
  overwrite_semantics none c3New c3Fn c3State 5 rfl rfl (by decide)

/-- Projection of the decorator tail when an output type was resolved:
the output-type registry gains the entry and its cache is cleared. -/
theorem finishState_ty_some (to_ : Option Nat) (fn : SFn) (type_ : Nat)
    (st : RegState) (tt : Nat) (h : resolveTo to_ fn = some tt) :
    (finishState to_ fn type_ st).SERIALIZER_TYPES
        = dictSet st.SERIALIZER_TYPES type_ tt
      ∧ (finishState to_ fn type_ st).tyCache = [] := by
  refine ⟨?_, ?_⟩ <;> simp [finishState, h]

/-- Projection of the decorator tail when no output type was resolved:
the output-type registry and its cache are left untouched. -/
theorem finishState_ty_none (to_ : Option Nat) (fn : SFn) (type_ : Nat)
    (st : RegState) (h : resolveTo to_ fn = none) :
    (finishState to_ fn type_ st).SERIALIZER_TYPES = st.SERIALIZER_TYPES
      ∧ (finishState to_ fn type_ st).tyCache = st.tyCache := by
  refine ⟨?_, ?_⟩ <;> simp [finishState, h]

/-- A function with an output type, registered for type `7`. -/
def c4Fn7 : SFn := ⟨40, "m4", "f7", [7], some 3, noRun⟩

/-- A function with no `to` argument and no return annotation, declared
for the fresh type `9`. -/
def c4New : SFn := ⟨41, "m4", "g9", [9], none, noRun⟩

/-- A state in which type `7` was registered with output type `3` and
the output-type resolution for `7` has been queried and memoized. -/
def c4State : RegState := ⟨[(7, c4Fn7)], [(7, 3)], [], [(7, some 3)]⟩

/-- Counterexample for claim C4: a successful registration that declares
no output type (no `to` argument, no return annotation) leaves the
output-type cache exactly as it was — here non-empty — whereas the claim
says every successful registration fully clears both caches. -/
theorem ty_cache_not_cleared_counterexample :
    regOk (serializer_wrapper none none c4New c4State) = true ∧
    (regStateAfter none none c4New c4State).tyCache = c4State.tyCache ∧
    c4State.tyCache ≠ [] :=
  ⟨rfl, rfl, by decide⟩

/-- Claim C4 (amended): every successful registration clears the
function-resolution cache; the output-type cache is cleared exactly when
the registration declares an output type, which is the only case in
which the output-type mapping changes — so after any successful
registration both memos are coherent with the new registry state and
every later resolution query reflects it, even for types queried and
cached before the registration. -/
theorem registration_cache_coherence (issub : Nat → Nat → Bool)
    (to_ : Option Nat) (ow : Option Bool) (fn g : SFn)
    (st st' : RegState) (w : List String)
    (hty : TyCacheCoherent issub st)
    (hok : serializer_wrapper to_ ow fn st = Except.ok (g, st', w)) :
    st'.fnCache = [] ∧ FnCacheCoherent issub st' ∧ TyCacheCoherent issub st' := by
  obtain ⟨-, type_, -, rfl⟩ := serializer_wrapper_ok hok
  refine ⟨finishState_fnCache to_ fn type_ st, ?_, ?_⟩
  · intro t r h
    rw [finishState_fnCache] at h
    simp [dictGet] at h
  · cases hto : resolveTo to_ fn with
    | some tt =>
      intro t r h
      rw [(finishState_ty_some to_ fn type_ st tt hto).2] at h
      simp [dictGet] at h
    | none =>
      intro t r h
      rw [(finishState_ty_none to_ fn type_ st hto).2] at h
      have hold := hty t r h
      unfold get_serializer_type_nocache at hold ⊢
      rw [(finishState_ty_none to_ fn type_ st hto).1]
      exact hold

/-- Witness for C4 (amended): after registering `c4New` (which declares
no output type) in `c4State`, the function cache is empty and both
memos are coherent with the new state. -/
theorem registration_cache_coherence_witness :
    (finishState none c4New 9 c4State).fnCache = []
      ∧ FnCacheCoherent (fun _ _ => false) (finishState none c4New 9 c4State)
      ∧ TyCacheCoherent (fun _ _ => false) (finishState none c4New 9 c4State) :=
  registration_cache_coherence (fun _ _ => false) none none c4New c4New c4State
    (finishState none c4New 9 c4State) []
    (by
      intro t r h
      by_cases ht : (7 : Nat) = t
      · subst ht
        simp [c4State, dictGet] at h
        subst h
        rfl
      · simp [c4State, dictGet, ht] at h)
    rfl

/-- Resolution immediately after a registration whose declared input
type is queried: the cleared cache misses, the registry holds an exact
entry for the type, so the new function is returned and the state is
extended only in its function cache. -/
theorem get_serializer_finish_exact (issub : Nat → Nat → Bool)
    (to_ : Option Nat) (fn : SFn) (T : Nat) (st : RegState) :
    get_serializer issub (finishState to_ fn T st) T
      = (some fn,
         { finishState to_ fn T st with fnCache := dictSet [] T (some fn) }) := by
  have hno : get_serializer_nocache issub (finishState to_ fn T st) T = some fn := by
    unfold get_serializer_nocache lookupBySubclass
    rw [finishState_SERIALIZERS, dictGet_dictSet_self]
  unfold get_serializer
  rw [finishState_fnCache]
  simp [dictGet, hno]

/-- Claim C9: after a successful registration of `fn` for input type `T`
with a declared output type (explicit `to` or return annotation),
serializing a value of exact type `T` with `get_type=True` returns the
pair of `fn`'s result and that declared output type. -/
theorem output_type_roundtrip (issub : Nat → Nat → Bool)
    (to_ : Option Nat) (ow : Option Bool) (fn g : SFn)
    (st st' : RegState) (w : List String) (T os : Nat) (v : PyVal)
    (hargs : fn.argTypes = [T])
    (hto : resolveTo to_ fn = some os)
    (hok : serializer_wrapper to_ ow fn st = Except.ok (g, st', w))
    (hvty : v.ty = T) :
    (serialize issub st' v true).1
      = SerializeOut.pair (some (fn.run v)) (some os) := by
  obtain ⟨-, t0, hargs0, rfl⟩ := serializer_wrapper_ok hok
  rw [hargs] at hargs0
  simp at hargs0
  subst hargs0
  have hcache : (get_serializer_type issub
      ({ finishState to_ fn T st with fnCache := dictSet [] T (some fn) }) T).1
        = some os := by
    rw [get_serializer_type_fst_of_empty issub _ T
      (show ({ finishState to_ fn T st with
          fnCache := dictSet [] T (some fn) } : RegState).tyCache = []
        from (finishState_ty_some to_ fn T st os hto).2)]
    unfold get_serializer_type_nocache lookupBySubclass
    rw [show ({ finishState to_ fn T st with
        fnCache := dictSet [] T (some fn) } : RegState).SERIALIZER_TYPES
          = dictSet st.SERIALIZER_TYPES T os
      from (finishState_ty_some to_ fn T st os hto).1]
    rw [dictGet_dictSet_self]
  simp only [serialize, hvty]
  rw [get_serializer_finish_exact issub to_ fn T st]
  simp [hcache]

/-- A conversion function for type `4` producing a string. -/
def c9Fn : SFn := ⟨91, "m9", "f9", [4], none, fun _ => SVal.str "s"⟩

/-- A value of exact type `4`. -/
def c9Val : PyVal := ⟨4, false, false, []⟩

/-- Witness for C9: registering `c9Fn` for type `4` with declared output
type `100`, then serializing a value of type `4` with `get_type=True`,
returns the function's result paired with `100`. -/
theorem output_type_roundtrip_witness :
    (serialize (fun _ _ => false)
        (finishState (some 100) c9Fn 4 emptyState) c9Val true).1
      = SerializeOut.pair (some (c9Fn.run c9Val)) (some 100) :=
  output_type_roundtrip (fun _ _ => false) (some 100) none c9Fn c9Fn
    emptyState (finishState (some 100) c9Fn 4 emptyState) [] 4 100 c9Val
    rfl rfl rfl rfl

/-- Claim C10: a successful re-registration for an input type that is
already a registry key leaves the key sequence — and hence the reverse
insertion order scanned by `get_serializer` — unchanged, so the
registered type that wins the ancestor scan is the same for every
queried type before and after the overwrite. -/
theorem overwrite_preserves_order (issub : Nat → Nat → Bool)
    (to_ : Option Nat) (ow : Option Bool) (fn fold g : SFn)
    (st st' : RegState) (w : List String) (t : Nat)
    (hargs : fn.argTypes = [t])
    (hreg : dictGet st.SERIALIZERS t = some fold)
    (hok : serializer_wrapper to_ ow fn st = Except.ok (g, st', w)) :
    st'.SERIALIZERS.map Prod.fst = st.SERIALIZERS.map Prod.fst
      ∧ ∀ q, (firstMatchPair issub q st'.SERIALIZERS.reverse).map Prod.fst
          = (firstMatchPair issub q st.SERIALIZERS.reverse).map Prod.fst := by
  obtain ⟨-, t0, hargs0, rfl⟩ := serializer_wrapper_ok hok
  rw [hargs] at hargs0
  simp at hargs0
  subst hargs0
  have hkeys : (finishState to_ fn t st).SERIALIZERS.map Prod.fst
      = st.SERIALIZERS.map Prod.fst := by
    rw [finishState_SERIALIZERS]
    exact dictSet_map_fst st.SERIALIZERS t fn fold hreg
  refine ⟨hkeys, fun q => ?_⟩
  apply firstMatchPair_fst_congr
  simp only [List.map_reverse, hkeys]

/-- A replacement function for the already-registered type `1`. -/
def c10New : SFn := ⟨24, "m", "f1b", [1], none, noRun⟩

/-- Witness for C10: overwriting type `1` (registered first) in a
three-entry registry keeps the key order `[1, 2, 3]`, and the ancestor
scan for the queried type `10` picks the same registered type as
before. -/
theorem overwrite_preserves_order_witness :
    (finishState none c10New 1 cState).SERIALIZERS.map Prod.fst
        = cState.SERIALIZERS.map Prod.fst
      ∧ (firstMatchPair cIssub 10
            (finishState none c10New 1 cState).SERIALIZERS.reverse).map Prod.fst
          = (firstMatchPair cIssub 10 cState.SERIALIZERS.reverse).map Prod.fst :=
  ⟨(overwrite_preserves_order cIssub none (some true) c10New cFn1 c10New cState
      (finishState none c10New 1 cState) [] 1 rfl rfl rfl).1,
   (overwrite_preserves_order cIssub none (some true) c10New cFn1 c10New cState
      (finishState none c10New 1 cState) [] 1 rfl rfl rfl).2 10⟩

end Serializers
